import Mathlib

/-!
Shallow embedding of the AFL LLVM-mode instrumentation pass
(src/llvm_mode/afl-llvm-pass.so.cc) and proofs about its block-selection,
allow-list filtering, configuration validation and injected code sequence.

The embedding follows AFLCoverage::AFLCoverage (constructor, allow-list
loading) and AFLCoverage::runOnModule (banner, AFL_INST_RATIO validation,
the per-block loop: allow-list filter, predecessor/successor selection,
addressability check, injected load/store sequence, final diagnostics).
Strings are modelled as lists of characters, LLVM basic blocks as records
carrying exactly the attributes the pass inspects.
-/

namespace AFLPass

/-! ### Debug locations and basic blocks -/

/-- The part of an inlined-at DILocation the pass reads: getFilename and
getLine of cDILoc->getInlinedAt(). -/
structure InlinedLoc where
  filename : List Char
  line : Nat
deriving DecidableEq

/-- The part of a DILocation the pass reads at the first insertion point:
getLine, getFilename, and the optional inlined-at location. -/
structure DILoc where
  line : Nat
  filename : List Char
  inlinedAt : Option InlinedLoc
deriving DecidableEq

/-- A basic block as the pass sees it: the debug location of the first
insertion point (none when IP->getDebugLoc() is null), the list of
predecessors, each given by its successor list (successors modelled as
`Option Unit` to mirror the `Succ != NULL` test in the counting loop), and
whether BlockAddress::get(&F, &BB) is non-null. -/
structure BB where
  debugLoc : Option DILoc
  preds : List (List (Option Unit))
  addressable : Bool
deriving DecidableEq

/-- A function is its list of basic blocks; a module is its list of
functions (the pass iterates `for (auto &F : M) for (auto &BB : F)`). -/
abbrev ModuleCFG : Type := List (List BB)

/-! ### Allow-list loading (AFLCoverage constructor) -/

/-- Embeds the AFLCoverage constructor. The argument models the
AFL_LLVM_WHITELIST environment variable: `none` when the variable is unset
(whitelist stays empty), `some none` when the named file cannot be opened
(report_fatal_error), `some (some lines)` when the file opens and the
getline loop pushes its lines in order. -/
def constructAFLCoverage : Option (Option (List (List Char))) → Except Unit (List (List Char))
  | none => Except.ok []
  | some none => Except.error ()
  | some (some lines) => Except.ok lines

/-! ### AFL_INST_RATIO parsing and validation -/

/-- Numeric value of a list of decimal digits, most significant first. -/
def digitsToNat (ds : List Char) : Nat :=
  ds.foldl (fun a c => a * 10 + (c.toNat - '0'.toNat)) 0

/-- Embeds `sscanf(inst_ratio_str, "%u", &inst_ratio)`: skip leading
whitespace, allow an optional sign, then require at least one decimal
digit; the converted value is reduced modulo 2^32 (unsigned int). Returns
`none` when sscanf would return 0 (no conversion). -/
def parseUInt (s : List Char) : Option Nat :=
  let s1 := s.dropWhile (fun c => c == ' ' || c == '\t' || c == '\n' || c == '\r')
  let signAndRest : Bool × List Char :=
    match s1 with
    | '-' :: rest => (true, rest)
    | '+' :: rest => (false, rest)
    | rest => (false, rest)
  let ds := signAndRest.2.takeWhile Char.isDigit
  if ds.isEmpty then none
  else
    let v := digitsToNat ds % 2 ^ 32
    some (if signAndRest.1 then (2 ^ 32 - v) % 2 ^ 32 else v)

/-- Embeds the AFL_INST_RATIO block of runOnModule: with the variable unset
the ratio stays 100; otherwise a failed conversion, a zero value or a value
above 100 is a FATAL error. -/
def decideInstRatio : Option (List Char) → Except Unit Nat
  | none => Except.ok 100
  | some s =>
    match parseUInt s with
    | none => Except.error ()
    | some inst_ratio =>
      if inst_ratio = 0 ∨ inst_ratio > 100 then Except.error ()
      else Except.ok inst_ratio

/-! ### Allow-list filter -/

/-- Location resolution inside the filter: start from the direct
DILocation's filename and line; if the filename is empty and an inlined-at
location exists, use the inlined location's filename and line instead. -/
def resolveLoc (d : DILoc) : List Char × Nat :=
  if d.filename.isEmpty then
    match d.inlinedAt with
    | some o => (o.filename, o.line)
    | none => (d.filename, d.line)
  else (d.filename, d.line)

/-- The whitelist loop: for each entry, if the resolved filename is at
least as long as the entry, compare the tail of the filename of the
entry's length against the entry (`compare(len - elen, elen, entry)`);
stop at the first match. -/
def checkWhitelist (f : List Char) : List (List Char) → Bool
  | [] => false
  | e :: rest =>
    if e.length ≤ f.length then
      if f.drop (f.length - e.length) = e then true
      else checkWhitelist f rest
    else checkWhitelist f rest

/-- The whole `if (!myWhitelist.empty()) { ... if (!instrumentBlock)
continue; }` block: with an empty whitelist the filter is bypassed; with a
non-empty whitelist, instrumentBlock starts false and is set only when a
debug location exists, its resolved filename is non-empty, and the
whitelist loop finds a tail match. -/
def passesFilter (myWhitelist : List (List Char)) (bb : BB) : Bool :=
  if myWhitelist.isEmpty then true
  else
    match bb.debugLoc with
    | none => false
    | some d =>
      let fl := resolveLoc d
      if fl.1.isEmpty then false
      else checkWhitelist fl.1 myWhitelist

/-! ### Predecessor/successor selection -/

/-- The successor-counting loop over one predecessor: count++ for every
non-null successor. -/
def countSuccs (succs : List (Option Unit)) : Nat :=
  succs.foldl (fun count s => if s.isSome then count + 1 else count) 0

/-- One iteration of the predecessor loop updating `more_than_one`: a -1
value becomes 0 on seeing any predecessor, and any predecessor with more
than one successor forces the value to 1. -/
def predStep (mto : Int) (pred : List (Option Unit)) : Int :=
  let mto2 := if mto = -1 then (0 : Int) else mto
  if countSuccs pred > 1 then 1 else mto2

/-- The `more_than_one` value after the predecessor loop, starting from
-1. -/
def moreThanOne (preds : List (List (Option Unit))) : Int :=
  preds.foldl predStep (-1)

/-! ### The full per-block decision -/

/-- Whether the per-block loop body reaches the injection code for a block:
it must survive the allow-list filter (first `continue`), have
`more_than_one == 1` after the predecessor loop (second `continue`), and be
addressable via BlockAddress::get (third `continue`). -/
def shouldInstrument (myWhitelist : List (List Char)) (bb : BB) : Bool :=
  if passesFilter myWhitelist bb then
    if moreThanOne bb.preds = 1 then bb.addressable
    else false
  else false

/-! ### The injected IR sequence -/

/-- Runtime values flowing through the injected code: 64-bit integers
(kept reduced modulo 2^64 at arithmetic operations), byte-offset pointers
into the coverage map, block addresses, and undef. -/
inductive Val where
  | int (n : Nat)
  | ptr (byteOff : Nat)
  | blockAddr (f bb : Nat)
  | undef
deriving DecidableEq

/-- Instruction operands: an SSA register (numbered in order of creation),
an integer constant, or a BlockAddress constant. -/
inductive Operand where
  | reg (i : Nat)
  | constInt (n : Nat)
  | blockAddress (f bb : Nat)
deriving DecidableEq

/-- The IRBuilder instructions the pass can emit. `loadGlobalMapPtr` is the
load of the `__afl_area_ptr` global; `icmp` is included (the builder offers
it) so that the absence of any comparison in the injected sequence is a
meaningful statement. Loads and stores record whether the `nosanitize`
metadata is attached. -/
inductive Inst where
  | loadGlobalMapPtr (nosanitize : Bool)
  | gep (base idx : Operand)
  | load64 (addr : Operand) (nosanitize : Bool)
  | shl (a amt : Operand)
  | add (a b : Operand)
  | store (v addr : Operand) (nosanitize : Bool)
  | icmp (a b : Operand)
deriving DecidableEq

/-- Whether an instruction is a comparison. -/
def Inst.isCmp : Inst → Bool
  | Inst.icmp _ _ => true
  | _ => false

/-- The exact sequence the pass emits for a surviving block of function `f`
and block `bb` (registers numbered by creation order):
MapPtr = load __afl_area_ptr; MapPtrPtr = gep MapPtr, 0;
Counter = load i64 MapPtrPtr; Shifted = shl Counter, 3;
MapPtrIdx = gep MapPtr, Shifted; store blockaddress(f, bb), MapPtrIdx;
Incr = add Counter, 1; store Incr, MapPtrPtr — all loads and stores
tagged nosanitize. -/
def injectedCode (f bb : Nat) : List Inst :=
  [ Inst.loadGlobalMapPtr true,
    Inst.gep (Operand.reg 0) (Operand.constInt 0),
    Inst.load64 (Operand.reg 1) true,
    Inst.shl (Operand.reg 2) (Operand.constInt 3),
    Inst.gep (Operand.reg 0) (Operand.reg 3),
    Inst.store (Operand.blockAddress f bb) (Operand.reg 4) true,
    Inst.add (Operand.reg 2) (Operand.constInt 1),
    Inst.store (Operand.reg 5) (Operand.reg 1) true ]

/-! ### Semantics of the injected sequence -/

/-- One entry of the memory-access trace of an execution: the load of the
map-base global, a 64-bit read of a map word, or a 64-bit write of a map
word; each records the nosanitize tag. -/
inductive Access where
  | readGlobal (nosanitize : Bool)
  | read (word : Nat) (nosanitize : Bool)
  | write (word : Nat) (v : Val) (nosanitize : Bool)
deriving DecidableEq

/-- Execution state: the SSA registers created so far, the coverage map as
a word-indexed memory (word i lives at byte offset 8 * i), and the access
trace. -/
structure ExecState where
  regs : List Val
  mem : Nat → Val
  trace : List Access

/-- Operand evaluation against the current registers. -/
def evalOp (regs : List Val) : Operand → Val
  | Operand.reg i => regs.getD i Val.undef
  | Operand.constInt n => Val.int n
  | Operand.blockAddress f bb => Val.blockAddr f bb

/-- Small-step semantics of one instruction. The map base global holds the
pointer to byte offset 0; gep does byte arithmetic on an i8 pointer; the
64-bit load and store access the word at `byteOff / 8`; shl and add wrap
modulo 2^64. -/
def step (st : ExecState) : Inst → ExecState
  | Inst.loadGlobalMapPtr ns =>
    ⟨st.regs ++ [Val.ptr 0], st.mem, st.trace ++ [Access.readGlobal ns]⟩
  | Inst.gep base idx =>
    let v := match evalOp st.regs base, evalOp st.regs idx with
      | Val.ptr b, Val.int k => Val.ptr (b + k)
      | _, _ => Val.undef
    ⟨st.regs ++ [v], st.mem, st.trace⟩
  | Inst.load64 a ns =>
    match evalOp st.regs a with
    | Val.ptr b =>
      ⟨st.regs ++ [st.mem (b / 8)], st.mem, st.trace ++ [Access.read (b / 8) ns]⟩
    | _ => ⟨st.regs ++ [Val.undef], st.mem, st.trace⟩
  | Inst.shl a amt =>
    let v := match evalOp st.regs a, evalOp st.regs amt with
      | Val.int x, Val.int s => Val.int (x * 2 ^ s % 2 ^ 64)
      | _, _ => Val.undef
    ⟨st.regs ++ [v], st.mem, st.trace⟩
  | Inst.add a b =>
    let v := match evalOp st.regs a, evalOp st.regs b with
      | Val.int x, Val.int y => Val.int ((x + y) % 2 ^ 64)
      | _, _ => Val.undef
    ⟨st.regs ++ [v], st.mem, st.trace⟩
  | Inst.store v a ns =>
    match evalOp st.regs a with
    | Val.ptr b =>
      ⟨st.regs, fun i => if i = b / 8 then evalOp st.regs v else st.mem i,
        st.trace ++ [Access.write (b / 8) (evalOp st.regs v) ns]⟩
    | _ => ⟨st.regs, st.mem, st.trace⟩
  | Inst.icmp a b =>
    ⟨st.regs ++ [if evalOp st.regs a = evalOp st.regs b then Val.int 1 else Val.int 0],
      st.mem, st.trace⟩

/-- Execute a straight-line instruction sequence. -/
def exec (code : List Inst) (st : ExecState) : ExecState :=
  code.foldl step st

/-! ### The pass driver -/

/-- The environment the pass reads: isatty(2), AFL_QUIET, AFL_INST_RATIO,
AFL_HARDEN, AFL_USE_ASAN, AFL_USE_MSAN. -/
structure Env where
  isattyStderr : Bool
  aflQuiet : Bool
  aflInstRatioStr : Option (List Char)
  aflHarden : Bool
  aflUseAsan : Bool
  aflUseMsan : Bool
deriving DecidableEq

/-- The `be_quiet` flag: set unless stderr is a tty and AFL_QUIET is
unset. -/
def beQuiet (env : Env) : Bool :=
  !(env.isattyStderr && !env.aflQuiet)

/-- Build mode reported in the summary line. -/
inductive Mode where
  | hardened
  | asanMsan
  | nonHardened
deriving DecidableEq

/-- Mode selection in the OKF summary: AFL_HARDEN wins, then
AFL_USE_ASAN or AFL_USE_MSAN, else non-hardened. -/
def buildMode (env : Env) : Mode :=
  if env.aflHarden then Mode.hardened
  else if env.aflUseAsan || env.aflUseMsan then Mode.asanMsan
  else Mode.nonHardened

/-- Diagnostics the pass can emit: the banner, the no-targets warning, and
the OKF summary carrying the count, the build mode and the echoed ratio. -/
inductive Diag where
  | banner
  | warnNoTargets
  | okSummary (n : Nat) (mode : Mode) (ratio : Nat)
deriving DecidableEq

/-- The per-block loop over the module: a surviving block of function
index fi and block index bi gets `injectedCode fi bi` inserted at its
first insertion point, every other block is left unchanged. -/
def instrumentModule (myWhitelist : List (List Char)) (m : ModuleCFG) :
    List (List (Option (List Inst))) :=
  m.enum.map (fun fp =>
    fp.2.enum.map (fun bp =>
      if shouldInstrument myWhitelist bp.2 then some (injectedCode fp.1 bp.1) else none))

/-- The `inst_blocks` counter: one increment per block that received
injected code. -/
def countInst (mm : List (List (Option (List Inst)))) : Nat :=
  (mm.map (fun f => (f.filter Option.isSome).length)).sum

/-- The outcome of a successful runOnModule: the diagnostics emitted, the
injected code per block, and the C++ return value (always true). -/
structure RunOut where
  diags : List Diag
  mutated : List (List (Option (List Inst)))
  ret : Bool
deriving DecidableEq

/-- Embeds AFLCoverage::runOnModule: emit the banner unless quiet, validate
AFL_INST_RATIO (FATAL on a bad value), instrument every surviving block,
then emit the no-targets warning or the summary unless quiet, and return
true. -/
def runOnModule (env : Env) (myWhitelist : List (List Char)) (m : ModuleCFG) :
    Except Unit RunOut :=
  match decideInstRatio env.aflInstRatioStr with
  | Except.error e => Except.error e
  | Except.ok inst_ratio =>
    let mutated := instrumentModule myWhitelist m
    let inst_blocks := countInst mutated
    Except.ok
      ⟨(if beQuiet env then [] else [Diag.banner]) ++
        (if beQuiet env then []
         else if inst_blocks = 0 then [Diag.warnNoTargets]
         else [Diag.okSummary inst_blocks (buildMode env) inst_ratio]),
        mutated, true⟩

/-! ### Helper lemmas -/

/-- For an entry no longer than the filename, the tail comparison of the
whitelist loop is exactly the list-suffix relation. -/
theorem drop_eq_iff_suffix (e f : List Char) (hlen : e.length ≤ f.length) :
    f.drop (f.length - e.length) = e ↔ e <:+ f := by
  constructor
  · intro h
    refine ⟨f.take (f.length - e.length), ?_⟩
    conv_rhs => rw [← List.take_append_drop (f.length - e.length) f]
    rw [h]
  · rintro ⟨t, rfl⟩
    have hl : (t ++ e).length - e.length = t.length := by
      simp [List.length_append]
    rw [hl]
    exact List.drop_left t e

/-- The whitelist loop returns true exactly when some entry is a suffix of
the filename. -/
theorem checkWhitelist_iff (f : List Char) (wl : List (List Char)) :
    checkWhitelist f wl = true ↔ ∃ e ∈ wl, e <:+ f := by
  induction wl with
  | nil => simp [checkWhitelist]
  | cons e rest ih =>
    by_cases hlen : e.length ≤ f.length
    · by_cases heq : f.drop (f.length - e.length) = e
      · have hsuf : e <:+ f := (drop_eq_iff_suffix e f hlen).mp heq
        simp only [checkWhitelist, if_pos hlen, if_pos heq, true_iff]
        exact ⟨e, List.mem_cons_self e rest, hsuf⟩
      · have hns : ¬ e <:+ f := fun hs => heq ((drop_eq_iff_suffix e f hlen).mpr hs)
        simp only [checkWhitelist, if_pos hlen, if_neg heq, ih, List.mem_cons]
        constructor
        · rintro ⟨x, hx, hs⟩
          exact ⟨x, Or.inr hx, hs⟩
        · rintro ⟨x, hx | hx, hs⟩
          · exact absurd hs (hx ▸ hns)
          · exact ⟨x, hx, hs⟩
    · have hns : ¬ e <:+ f := fun hs => hlen hs.length_le
      simp only [checkWhitelist, if_neg hlen, ih, List.mem_cons]
      constructor
      · rintro ⟨x, hx, hs⟩
        exact ⟨x, Or.inr hx, hs⟩
      · rintro ⟨x, hx | hx, hs⟩
        · exact absurd hs (hx ▸ hns)
        · exact ⟨x, hx, hs⟩

/-- The predecessor loop never reaches 1 when every predecessor has at
most one successor and the accumulator is not 1. -/
theorem foldl_predStep_ne_one (l : List (List (Option Unit)))
    (h : ∀ p ∈ l, countSuccs p ≤ 1) :
    ∀ a : Int, a ≠ 1 → l.foldl predStep a ≠ 1 := by
  induction l with
  | nil =>
    intro a ha
    simpa using ha
  | cons q t ih =>
    intro a ha
    simp only [List.foldl_cons]
    refine ih (fun p hp => h p (List.mem_cons_of_mem q hp)) _ ?_
    have hq : ¬ countSuccs q > 1 := by
      have := h q (List.mem_cons_self q t)
      omega
    unfold predStep
    rw [if_neg hq]
    by_cases hm : a = -1
    · simp [hm]
    · simp [hm, ha]

/-- Once the predecessor loop has set more_than_one to 1 it stays 1. -/
theorem foldl_predStep_one (l : List (List (Option Unit))) :
    l.foldl predStep 1 = 1 := by
  induction l with
  | nil => rfl
  | cons q t ih =>
    have h1 : predStep 1 q = 1 := by
      unfold predStep
      rw [if_neg (show ¬(1 : Int) = -1 by decide)]
      split <;> rfl
    simp only [List.foldl_cons, h1, ih]

/-- Any predecessor with more than one successor drives the loop value to
1, whatever the accumulator. -/
theorem foldl_predStep_eq_one_of_mem (p : List (Option Unit)) (hc : 1 < countSuccs p) :
    ∀ (l : List (List (Option Unit))), p ∈ l → ∀ a : Int, l.foldl predStep a = 1 := by
  intro l
  induction l with
  | nil =>
    intro h
    cases h
  | cons q t ih =>
    intro hp a
    simp only [List.foldl_cons]
    rcases List.mem_cons.mp hp with heq | hmem
    · have h1 : predStep a q = 1 := by
        unfold predStep
        rw [if_pos (heq ▸ hc)]
      rw [h1]
      exact foldl_predStep_one t
    · exact ih hmem _

/-! ### Claim theorems -/

/-- C1: the claim says that with a non-empty allow-list a block with no
debug location (or an empty resolved file name) defaults to "keep". The
code does the opposite: instrumentBlock starts false, is never set when
the location is missing or unresolved, and `if (!instrumentBlock)
continue;` skips the block. This theorem evaluates the embedded code at
two failing inputs that pass target selection (a predecessor with two
successors) and addressability: one block with no debug location, one with
a debug location whose file name is empty and no inlined-at; both are
dropped, contradicting the claim (and the source comment "just instrument
the block if we are not able to determine our location"). -/
theorem c1_no_location_is_dropped :
    shouldInstrument [String.toList "foo.c"]
      ⟨none, [[some (), some ()]], true⟩ = false
    ∧ shouldInstrument [String.toList "foo.c"]
      ⟨some ⟨7, [], none⟩, [[some (), some ()]], true⟩ = false := by
  exact ⟨by decide, by decide⟩

/-- C3: a block with zero predecessors, or all of whose predecessors have
at most one successor, is never instrumented: more_than_one stays at -1 or
0 through the predecessor loop, so the `more_than_one != 1` continue fires
before any code is injected, whatever the allow-list. -/
theorem c3_fallthrough_blocks_skipped (myWhitelist : List (List Char)) (bb : BB)
    (h : ∀ p ∈ bb.preds, countSuccs p ≤ 1) :
    shouldInstrument myWhitelist bb = false := by
  have hne : moreThanOne bb.preds ≠ 1 :=
    foldl_predStep_ne_one bb.preds h (-1) (by decide)
  unfold shouldInstrument
  by_cases hf : passesFilter myWhitelist bb
  · rw [if_pos hf, if_neg hne]
  · rw [if_neg hf]

/-- Witness for C3: a block whose only predecessor has a single successor
is not instrumented. -/
theorem c3_fallthrough_blocks_skipped_witness :
    shouldInstrument [] ⟨none, [[some ()]], true⟩ = false :=
  c3_fallthrough_blocks_skipped [] ⟨none, [[some ()]], true⟩ (by decide)

/-- C4: with an empty allow-list (filter bypassed), a block with at least
one predecessor having two or more successors and a non-null block address
is always instrumented: the predecessor loop ends at 1, and no other
continue applies. -/
theorem c4_branch_target_instrumented (bb : BB) (p : List (Option Unit))
    (hp : p ∈ bb.preds) (hc : 1 < countSuccs p) (ha : bb.addressable = true) :
    shouldInstrument [] bb = true := by
  have h1 : moreThanOne bb.preds = 1 :=
    foldl_predStep_eq_one_of_mem p hc bb.preds hp (-1)
  unfold shouldInstrument passesFilter
  simp only [List.isEmpty_nil, if_true, h1, if_pos rfl, ha]

/-- Witness for C4: a block whose predecessor has two successors is
instrumented when no allow-list is configured. -/
theorem c4_branch_target_instrumented_witness :
    shouldInstrument [] ⟨none, [[some (), some ()]], true⟩ = true :=
  c4_branch_target_instrumented ⟨none, [[some (), some ()]], true⟩
    [some (), some ()] (by decide) (by decide) rfl

/-- C5: with a non-empty allow-list and a block whose resolved file name F
is non-empty, the filter keeps the block iff some entry E has length at
most that of F and is exactly the tail of F of length |E| (the list-suffix
relation), never requiring full equality. -/
theorem c5_suffix_filter (myWhitelist : List (List Char)) (bb : BB) (d : DILoc)
    (F : List Char) (ln : Nat) (hwl : myWhitelist ≠ [])
    (hd : bb.debugLoc = some d) (hres : resolveLoc d = (F, ln)) (hF : F ≠ []) :
    passesFilter myWhitelist bb = true ↔
      ∃ E ∈ myWhitelist, E.length ≤ F.length ∧ E <:+ F := by
  have hwl2 : myWhitelist.isEmpty = false := by
    cases myWhitelist
    · exact absurd rfl hwl
    · rfl
  have hF2 : F.isEmpty = false := by
    cases F
    · exact absurd rfl hF
    · rfl
  unfold passesFilter
  rw [hwl2, hd]
  simp only [Bool.false_eq_true, if_false, hres, hF2, checkWhitelist_iff]
  constructor
  · rintro ⟨e, he, hs⟩
    exact ⟨e, he, hs.length_le, hs⟩
  · rintro ⟨e, he, _, hs⟩
    exact ⟨e, he, hs⟩

/-- Witness for C5: entry "foo.c" keeps the block whose resolved file name
is the full path "/home/user/src/foo.c". -/
theorem c5_suffix_filter_witness :
    (passesFilter [String.toList "foo.c"]
        ⟨some ⟨3, String.toList "/home/user/src/foo.c", none⟩, [[some (), some ()]], true⟩ = true ↔
      ∃ E ∈ [String.toList "foo.c"],
        E.length ≤ (String.toList "/home/user/src/foo.c").length ∧
          E <:+ String.toList "/home/user/src/foo.c") :=
  c5_suffix_filter [String.toList "foo.c"]
    ⟨some ⟨3, String.toList "/home/user/src/foo.c", none⟩, [[some (), some ()]], true⟩
    ⟨3, String.toList "/home/user/src/foo.c", none⟩
    (String.toList "/home/user/src/foo.c") 3 (by decide) rfl rfl (by decide)

/-- C8: when the direct debug location exists but its file name is empty
and an inlined-at location is present, location resolution returns the
inlined location's file name and line, and with a non-empty allow-list the
filter decision is the whitelist check on the inlined file name. -/
theorem c8_inlined_location_preferred (myWhitelist : List (List Char)) (d : DILoc)
    (o : InlinedLoc) (bb : BB) (hf : d.filename = []) (hi : d.inlinedAt = some o)
    (hbb : bb.debugLoc = some d) (hwl : myWhitelist ≠ []) (ho : o.filename ≠ []) :
    resolveLoc d = (o.filename, o.line) ∧
      passesFilter myWhitelist bb = checkWhitelist o.filename myWhitelist := by
  have h1 : resolveLoc d = (o.filename, o.line) := by
    unfold resolveLoc
    rw [hf, hi]
    rfl
  have hwl2 : myWhitelist.isEmpty = false := by
    cases myWhitelist
    · exact absurd rfl hwl
    · rfl
  have ho2 : o.filename.isEmpty = false := by
    cases hof : o.filename
    · exact absurd hof ho
    · rfl
  refine ⟨h1, ?_⟩
  unfold passesFilter
  rw [hwl2, hbb]
  simp only [Bool.false_eq_true, if_false, h1, ho2]

/-- Witness for C8: a direct location with empty file name and an
inlined-at location naming "foo.c" resolves to "foo.c", which the filter
then checks against the allow-list. -/
theorem c8_inlined_location_preferred_witness :
    resolveLoc ⟨9, [], some ⟨String.toList "foo.c", 4⟩⟩ =
      (String.toList "foo.c", 4)
    ∧ passesFilter [String.toList "foo.c"]
        ⟨some ⟨9, [], some ⟨String.toList "foo.c", 4⟩⟩, [], true⟩ =
      checkWhitelist (String.toList "foo.c") [String.toList "foo.c"] :=
  c8_inlined_location_preferred [String.toList "foo.c"]
    ⟨9, [], some ⟨String.toList "foo.c", 4⟩⟩ ⟨String.toList "foo.c", 4⟩
    ⟨some ⟨9, [], some ⟨String.toList "foo.c", 4⟩⟩, [], true⟩
    rfl rfl rfl (by decide) (by decide)

/-- C2: executing the injected sequence against a map whose word 0 holds c
performs exactly four memory operations — the nosanitize load of the map
base global, a nosanitize read of wide-integer word 0, a nosanitize store
of the block's compile-time BlockAddress constant at word c, and a
nosanitize store of c + 1 back to word 0 — and the sequence contains no
comparison instruction, hence no bounds check of the index against the
map's capacity. -/
theorem c2_injected_sequence (f bb : Nat) (mem : Nat → Val) (c : Nat)
    (h : mem 0 = Val.int c) (hc : c < 2 ^ 61) :
    (exec (injectedCode f bb) ⟨[], mem, []⟩).trace =
      [Access.readGlobal true, Access.read 0 true,
        Access.write c (Val.blockAddr f bb) true,
        Access.write 0 (Val.int (c + 1)) true]
    ∧ ∀ i ∈ injectedCode f bb, i.isCmp = false := by
  have e61 : (2 : Nat) ^ 61 = 2305843009213693952 := by norm_num
  have e64 : (2 : Nat) ^ 64 = 18446744073709551616 := by norm_num
  rw [e61] at hc
  have h1 : c * 8 % 18446744073709551616 = c * 8 := Nat.mod_eq_of_lt (by omega)
  have h2 : (c + 1) % 18446744073709551616 = c + 1 := Nat.mod_eq_of_lt (by omega)
  have h3 : c * 8 / 8 = c := by omega
  constructor
  · simp [exec, injectedCode, step, evalOp, h, h1, h2, h3]
  · intro i hi
    simp only [injectedCode, List.mem_cons, List.not_mem_nil, or_false] at hi
    rcases hi with rfl | rfl | rfl | rfl | rfl | rfl | rfl | rfl <;> rfl

/-- Witness for C2: with the counter word holding 5, the trace reads word
0, writes the block address of function 1 block 2 at word 5, and writes 6
back to word 0, all nosanitize, with no comparison instruction emitted. -/
theorem c2_injected_sequence_witness :
    (exec (injectedCode 1 2) ⟨[], fun _ => Val.int 5, []⟩).trace =
      [Access.readGlobal true, Access.read 0 true,
        Access.write 5 (Val.blockAddr 1 2) true,
        Access.write 0 (Val.int 6) true]
    ∧ ∀ i ∈ injectedCode 1 2, i.isCmp = false :=
  c2_injected_sequence 1 2 (fun _ => Val.int 5) 5 rfl (by decide)

/-- C10: running the injected sequence when map word 0 holds c leaves
c + 1 in word 0 and the block identity in word c; when c = 0 the identity
store and the counter store alias word 0, so word 0 ends at 1 (the
identity is overwritten) and any block identity that the execution newly
persisted sits at a word index of at least 1. -/
theorem c10_counter_aliasing (f bb : Nat) (mem : Nat → Val) (c : Nat)
    (h : mem 0 = Val.int c) (hc : c < 2 ^ 61) :
    ((exec (injectedCode f bb) ⟨[], mem, []⟩).mem 0 = Val.int (c + 1))
    ∧ (c ≠ 0 → (exec (injectedCode f bb) ⟨[], mem, []⟩).mem c = Val.blockAddr f bb)
    ∧ (∀ j, (exec (injectedCode f bb) ⟨[], mem, []⟩).mem j ≠ mem j →
        (exec (injectedCode f bb) ⟨[], mem, []⟩).mem j = Val.blockAddr f bb → 1 ≤ j) := by
  have e61 : (2 : Nat) ^ 61 = 2305843009213693952 := by norm_num
  have e64 : (2 : Nat) ^ 64 = 18446744073709551616 := by norm_num
  rw [e61] at hc
  have h1 : c * 8 % 18446744073709551616 = c * 8 := Nat.mod_eq_of_lt (by omega)
  have h2 : (c + 1) % 18446744073709551616 = c + 1 := Nat.mod_eq_of_lt (by omega)
  have h3 : c * 8 / 8 = c := by omega
  have meq : ∀ i, (exec (injectedCode f bb) ⟨[], mem, []⟩).mem i =
      if i = 0 then Val.int (c + 1)
      else if i = c then Val.blockAddr f bb else mem i := by
    intro i
    simp [exec, injectedCode, step, evalOp, h, h1, h2, h3]
  refine ⟨by rw [meq 0]; simp, fun hc0 => by rw [meq c]; simp [hc0], ?_⟩
  intro j hne hba
  rcases Nat.eq_zero_or_pos j with rfl | hj
  · rw [meq 0] at hba
    simp at hba
  · exact hj

/-- Witness for C10: starting from a map holding 0 everywhere, the first
recorded block's identity goes to word 0 and is immediately overwritten by
the counter update, leaving word 0 at 1. -/
theorem c10_counter_aliasing_witness :
    ((exec (injectedCode 3 4) ⟨[], fun _ => Val.int 0, []⟩).mem 0 = Val.int 1)
    ∧ ((0 : Nat) ≠ 0 →
        (exec (injectedCode 3 4) ⟨[], fun _ => Val.int 0, []⟩).mem 0 = Val.blockAddr 3 4)
    ∧ (∀ j, (exec (injectedCode 3 4) ⟨[], fun _ => Val.int 0, []⟩).mem j ≠ (fun _ => Val.int 0) j →
        (exec (injectedCode 3 4) ⟨[], fun _ => Val.int 0, []⟩).mem j = Val.blockAddr 3 4 → 1 ≤ j) :=
  c10_counter_aliasing 3 4 (fun _ => Val.int 0) 0 rfl (by decide)

/-- C6: configuration is validated fail-fast. An unreadable allow-list
file is a fatal error at pass construction; the ratio strings "0", "101"
and "abc" are rejected fatally while "1" and "100" are accepted; and a run
with a rejected ratio aborts before producing any instrumentation. -/
theorem c6_config_validation :
    constructAFLCoverage (some none) = Except.error ()
    ∧ decideInstRatio (some (String.toList "0")) = Except.error ()
    ∧ decideInstRatio (some (String.toList "101")) = Except.error ()
    ∧ decideInstRatio (some (String.toList "abc")) = Except.error ()
    ∧ decideInstRatio (some (String.toList "1")) = Except.ok 1
    ∧ decideInstRatio (some (String.toList "100")) = Except.ok 100
    ∧ ∀ (myWhitelist : List (List Char)) (m : ModuleCFG),
        runOnModule ⟨true, false, some (String.toList "0"), false, false, false⟩
          myWhitelist m = Except.error () :=
  ⟨rfl, rfl, rfl, rfl, rfl, rfl, fun _ _ => rfl⟩

/-- C7: when a valid ratio is configured and zero blocks survive
filtering, runOnModule still succeeds and returns true; the no-targets
warning appears on the diagnostic stream exactly when the banner is not
suppressed (be_quiet unset). -/
theorem c7_zero_blocks_warns_not_fails (env : Env) (myWhitelist : List (List Char))
    (m : ModuleCFG) (r : Nat) (hr : decideInstRatio env.aflInstRatioStr = Except.ok r)
    (h0 : countInst (instrumentModule myWhitelist m) = 0) :
    ∃ out : RunOut, runOnModule env myWhitelist m = Except.ok out ∧ out.ret = true
      ∧ (beQuiet env = false → Diag.warnNoTargets ∈ out.diags)
      ∧ (beQuiet env = true → out.diags = []) := by
  refine ⟨⟨(if beQuiet env then [] else [Diag.banner]) ++
      (if beQuiet env then []
       else if countInst (instrumentModule myWhitelist m) = 0 then [Diag.warnNoTargets]
       else [Diag.okSummary (countInst (instrumentModule myWhitelist m)) (buildMode env) r]),
      instrumentModule myWhitelist m, true⟩, ?_, rfl, ?_, ?_⟩
  · unfold runOnModule
    rw [hr]
  · intro hbq
    simp [hbq, h0]
  · intro hbq
    simp [hbq]

/-- Witness for C7: an empty module under a valid default configuration
instruments nothing, succeeds, and emits the warning since the banner is
not suppressed. -/
theorem c7_zero_blocks_warns_not_fails_witness :
    ∃ out : RunOut,
      runOnModule ⟨true, false, none, false, false, false⟩ [] [] = Except.ok out
      ∧ out.ret = true
      ∧ (beQuiet ⟨true, false, none, false, false, false⟩ = false →
          Diag.warnNoTargets ∈ out.diags)
      ∧ (beQuiet ⟨true, false, none, false, false, false⟩ = true → out.diags = []) :=
  c7_zero_blocks_warns_not_fails ⟨true, false, none, false, false, false⟩ [] [] 100 rfl rfl

/-- C9: two environments that agree except on the instrumentation-ratio
string, both carrying valid ratios, lead to successful runs that produce
the same mutated module and the same return value; the ratio is only
echoed in the summary diagnostic. -/
theorem c9_ratio_never_consulted (e1 e2 : Env) (myWhitelist : List (List Char))
    (m : ModuleCFG) (r1 r2 : Nat)
    (htty : e1.isattyStderr = e2.isattyStderr) (hq : e1.aflQuiet = e2.aflQuiet)
    (hh : e1.aflHarden = e2.aflHarden) (hasan : e1.aflUseAsan = e2.aflUseAsan)
    (hmsan : e1.aflUseMsan = e2.aflUseMsan)
    (h1 : decideInstRatio e1.aflInstRatioStr = Except.ok r1)
    (h2 : decideInstRatio e2.aflInstRatioStr = Except.ok r2) :
    ∃ o1 o2 : RunOut,
      runOnModule e1 myWhitelist m = Except.ok o1
      ∧ runOnModule e2 myWhitelist m = Except.ok o2
      ∧ o1.mutated = o2.mutated ∧ o1.ret = o2.ret
      ∧ (beQuiet e1 = false → countInst o1.mutated ≠ 0 →
          Diag.okSummary (countInst o1.mutated) (buildMode e1) r1 ∈ o1.diags) := by
  refine ⟨⟨(if beQuiet e1 then [] else [Diag.banner]) ++
      (if beQuiet e1 then []
       else if countInst (instrumentModule myWhitelist m) = 0 then [Diag.warnNoTargets]
       else [Diag.okSummary (countInst (instrumentModule myWhitelist m)) (buildMode e1) r1]),
      instrumentModule myWhitelist m, true⟩,
    ⟨(if beQuiet e2 then [] else [Diag.banner]) ++
      (if beQuiet e2 then []
       else if countInst (instrumentModule myWhitelist m) = 0 then [Diag.warnNoTargets]
       else [Diag.okSummary (countInst (instrumentModule myWhitelist m)) (buildMode e2) r2]),
      instrumentModule myWhitelist m, true⟩, ?_, ?_, rfl, rfl, ?_⟩
  · unfold runOnModule
    rw [h1]
  · unfold runOnModule
    rw [h2]
  · intro hbq hn
    simp [hbq, hn]

/-- Witness for C9: ratios "1" and "100" on the empty module give runs
with identical mutated modules and return values. -/
theorem c9_ratio_never_consulted_witness :
    ∃ o1 o2 : RunOut,
      runOnModule ⟨true, false, some (String.toList "1"), false, false, false⟩ [] [] =
        Except.ok o1
      ∧ runOnModule ⟨true, false, some (String.toList "100"), false, false, false⟩ [] [] =
        Except.ok o2
      ∧ o1.mutated = o2.mutated ∧ o1.ret = o2.ret
      ∧ (beQuiet ⟨true, false, some (String.toList "1"), false, false, false⟩ = false →
          countInst o1.mutated ≠ 0 →
          Diag.okSummary (countInst o1.mutated)
            (buildMode ⟨true, false, some (String.toList "1"), false, false, false⟩) 1 ∈
            o1.diags) :=
  c9_ratio_never_consulted
    ⟨true, false, some (String.toList "1"), false, false, false⟩
    ⟨true, false, some (String.toList "100"), false, false, false⟩
    [] [] 1 100 rfl rfl rfl rfl rfl rfl rfl

end AFLPass
